import Mathlib

/-!
Verification of the pokeapi-to-csv exporter (the mature, cache-enabled variant
of `src/index.ts`, together with the label tables of `src/models.ts`).

The TypeScript is shallowly embedded:
* asynchronous fetch functions become pure Lean functions (a fetch `key =>
  Promise<value>` is a function `key -> value`; the cooperative scheduler never
  interleaves mutations, so this is faithful for the properties below);
* the rate-limited batch driver `batch` is embedded together with an explicit
  event trace (`BatchEv`) recording the windows it awaits and the pacing delays
  it inserts, so that windowing and throttling are visible propositions;
* `Promise.all`'s insensitivity to settlement order is modelled by an explicit
  completion-order parameter (`fillAt` / `settleWindow`);
* the two-tier `DiskMemoryCache` becomes explicit state passing over an
  in-memory association table plus a file-system map from paths to file
  contents; `JSON.stringify` / `JSON.parse` become a `Codec` record whose
  `roundtrip` field states exactly the "JSON-serializable value" assumption;
* JS `Map.set` / object-property assignment / `fs.writeFile` all overwrite in
  place, embedded as `alSet`; JS property lookup coerces an `undefined` index
  to the string "undefined", embedded as `jsIndex`;
* machine numbers: every numeric computation the program performs on the
  modelled paths (`/ 8 * 100`, `100 - x`, `/ 10`) is exact in IEEE doubles for
  the integer inputs involved, so they are embedded into `ℚ` (and `ℤ` where the
  source values are integral);
* `console.log`, per-batch statistics printing and `process.uptime` are pure
  I/O observation and are not modelled (the statistics counters themselves are).
-/

/-! ## Rate-limited batch fetcher (`batch`, src/index.ts lines 688-718) -/

/-- Observable events of one `batch` run: a window of fetches issued
concurrently and awaited together, or an inter-window pacing pause
(`await new Promise(res => setTimeout(res, delayMs))`). -/
inductive BatchEv (α : Type) where
  | window : List α → BatchEv α
  | delay : Nat → BatchEv α
deriving DecidableEq, Repr

/-- The loop body of `batch`: `for (let i = 0; i < items.length; i += batchSize)`
processes `items.slice(i, i + batchSize)`, pushes `await Promise.all(slice.map(fn))`
onto `results`, and pauses for `delayMs` iff `delayMs` is truthy (nonzero) and
`i + batchSize < items.length`.  Relative to the remaining suffix `l` of
`items`, that guard is `batchSize < l.length`.  The loop advances by `batchSize`
each iteration, so `items.length` iterations of fuel always suffice once
`batchSize ≥ 1` (for `batchSize = 0` the JavaScript loop never terminates;
every theorem below assumes a positive window size). -/
def batchGo {α β : Type} (fn : α → β) (batchSize delayMs : Nat) :
    Nat → List α → List β × List (BatchEv α)
  | 0, _ => ([], [])
  | _ + 1, [] => ([], [])
  | fuel + 1, x :: xs =>
    let w := (x :: xs).take batchSize
    let rest := (x :: xs).drop batchSize
    let r := batchGo fn batchSize delayMs fuel rest
    (w.map fn ++ r.1,
      BatchEv.window w ::
        (if delayMs ≠ 0 ∧ batchSize < (x :: xs).length
          then BatchEv.delay delayMs :: r.2 else r.2))

/-- `batch(items, fn, batchSize, delayMs)`: the returned `results` list paired
with the trace of windows and pacing delays.  The `label`/`cache` parameters of
the source only drive `console.log` and statistics reset and do not influence
the returned list, so they are not part of the embedding. -/
def batchRun {α β : Type} (fn : α → β) (batchSize delayMs : Nat) (items : List α) :
    List β × List (BatchEv α) :=
  batchGo fn batchSize delayMs items.length items

/-- The value `batch` resolves with. -/
def batchResults {α β : Type} (fn : α → β) (batchSize delayMs : Nat) (items : List α) :
    List β :=
  (batchRun fn batchSize delayMs items).1

/-- The window/delay trace of one `batch` run. -/
def batchTrace {α β : Type} (fn : α → β) (batchSize delayMs : Nat) (items : List α) :
    List (BatchEv α) :=
  (batchRun fn batchSize delayMs items).2

/-- The consecutive windows `items.slice(i, i + batchSize)` visited by the loop. -/
def chunksGo {α : Type} (batchSize : Nat) : Nat → List α → List (List α)
  | 0, _ => []
  | _ + 1, [] => []
  | fuel + 1, x :: xs =>
    (x :: xs).take batchSize :: chunksGo batchSize fuel ((x :: xs).drop batchSize)

/-- Partition into consecutive windows of at most `batchSize` items. -/
def chunks {α : Type} (batchSize : Nat) (l : List α) : List (List α) :=
  chunksGo batchSize l.length l

/-- The trace shape the claim describes: one `window` event per window, with a
`delay` event between two consecutive windows (when the delay is nonzero, i.e.
truthy in the source's `if (delayMs && ...)`) and never after the last one. -/
def intersperseDelays {α : Type} (delayMs : Nat) : List (List α) → List (BatchEv α)
  | [] => []
  | [w] => [BatchEv.window w]
  | w :: ws =>
    BatchEv.window w ::
      (if delayMs ≠ 0 then BatchEv.delay delayMs :: intersperseDelays delayMs ws
        else intersperseDelays delayMs ws)

/-- `Promise.all` settlement model: the fetches of a window settle in an
arbitrary order `order` (a list of window indices); each settlement writes
`fn w[j]` into result slot `j`.  Reading slot `j` after the settlements listed
in `order`. -/
def fillAt {α β : Type} (fn : α → β) (w : List α) :
    List (Fin w.length) → Fin w.length → Option β
  | [], _ => none
  | i :: rest, j => if j = i then some (fn (w.get j)) else fillAt fn w rest j

/-- The result array assembled by `Promise.all` after the settlements in
`order`, read out in index order. -/
def settleWindow {α β : Type} (fn : α → β) (w : List α) (order : List (Fin w.length)) :
    List (Option β) :=
  List.ofFn (fun j => fillAt fn w order j)

/-! ## String utilities (`toKebab`, `csvEscape`, src/index.ts lines 721-730) -/

/-- `str.replace(/([a-z])([A-Z])/g, '$1-$2')` on the character list.  The
regex is anchored at a lowercase/uppercase pair and scanning resumes after the
consumed pair; since the second character of a match is uppercase it can never
start another match, so sliding one character at a time is equivalent. -/
def kebabGo : List Char → List Char
  | a :: b :: rest =>
    if a.isLower ∧ b.isUpper then a :: '-' :: kebabGo (b :: rest)
    else a :: kebabGo (b :: rest)
  | l => l

/-- `toKebab`: insert hyphens at lower/upper boundaries, then `toLowerCase()`
(all identifiers involved are ASCII, where JS and Lean casing agree). -/
def toKebab (s : String) : String :=
  String.mk ((kebabGo s.toList).map Char.toLower)

/-- `s.replace(/"/g, '""')`: double every double-quote character. -/
def dupQuotes (s : String) : String :=
  String.mk (s.toList.flatMap (fun c => if c = '"' then ['"', '"'] else [c]))

/-- `csvEscape(val)`: `undefined`/`null` (here `none`) render as the empty
field; a string containing `"` `,` or a newline is wrapped in double quotes
with embedded quotes doubled; anything else is passed through.  The argument is
the JS string form `String(val)` of the cell (absent for `undefined`/`null`). -/
def csvEscape (val : Option String) : String :=
  match val with
  | none => ""
  | some s =>
    if s.toList.any (fun c => c = '"' ∨ c = ',' ∨ c = '\n')
      then "\"" ++ dupQuotes s ++ "\"" else s

/-! ## Association tables (JS `Map` / plain-object / directory semantics) -/

/-- Lookup in an insertion-ordered association table (JS `Map.get` /
object-property read). -/
def lookupA {A : Type} : List (String × A) → String → Option A
  | [], _ => none
  | (k, v) :: rest, key => if k = key then some v else lookupA rest key

/-- Overwriting insert (JS `Map.set` / object-property assignment /
`fs.writeFile` over an existing path). -/
def alSet {A : Type} : List (String × A) → String → A → List (String × A)
  | [], key, v => [(key, v)]
  | (k, w) :: rest, key, v =>
    if k = key then (key, v) :: rest else (k, w) :: alSet rest key v

/-- JS object indexing `m[k]` where the index expression may be `undefined`:
an `undefined` index is coerced to the property name "undefined". -/
def jsIndex {A : Type} (m : List (String × A)) (k : Option String) : Option A :=
  lookupA m (match k with | some s => s | none => "undefined")

/-! ## Disk+memory cache (`DiskMemoryCache`, `withCache`, src/index.ts 625-685) -/

/-- Uppercase hex digit of a value < 16 (percent-encoding uses uppercase). -/
def hexDigitUpper (n : Nat) : Char :=
  if n < 10 then Char.ofNat (48 + n) else Char.ofNat (55 + n)

/-- Bytes `encodeURIComponent` leaves unescaped: ASCII alphanumerics and
`- _ . ! ~ * ' ( )`. -/
def isUriSafeByte (b : UInt8) : Bool :=
  (65 ≤ b.toNat ∧ b.toNat ≤ 90) ∨ (97 ≤ b.toNat ∧ b.toNat ≤ 122) ∨
    (48 ≤ b.toNat ∧ b.toNat ≤ 57) ∨ b.toNat = 45 ∨ b.toNat = 95 ∨
    b.toNat = 46 ∨ b.toNat = 33 ∨ b.toNat = 126 ∨ b.toNat = 42 ∨
    b.toNat = 39 ∨ b.toNat = 40 ∨ b.toNat = 41

/-- `encodeURIComponent`: percent-encode every UTF-8 byte outside the safe
set.  Safe bytes are ASCII, hence never continuation bytes of a longer
character, so the byte-level view is exact. -/
def encodeURIComponent (s : String) : String :=
  String.mk (s.toUTF8.toList.flatMap (fun b =>
    if isUriSafeByte b then [Char.ofNat b.toNat]
    else ['%', hexDigitUpper (b.toNat / 16), hexDigitUpper (b.toNat % 16)]))

/-- `lastBatchStats` of a `DiskMemoryCache`. -/
structure BatchStats where
  fromMemory : Nat
  fromDisk : Nat
  fromApi : Nat
deriving DecidableEq, Repr

/-- The mutable state of one `DiskMemoryCache` instance: the in-memory `Map`
and the per-batch counters. -/
structure DMCacheState (V : Type) where
  mem : List (String × V)
  stats : BatchStats

/-- The persisted tier: file contents by absolute path. -/
structure Fs where
  files : List (String × String)

/-- The `source` tag of a `DiskMemoryCache.get` hit. -/
inductive Source where
  | memory
  | disk
deriving DecidableEq, Repr

/-- `JSON.stringify` / `JSON.parse` for the cached entity type.  `roundtrip`
is exactly the "JSON-serializable value" assumption: serializing and then
deserializing restores a deep-equal value. -/
structure Codec (V : Type) where
  stringify : V → String
  parse : String → Option V
  roundtrip : ∀ v, parse (stringify v) = some v

/-- `getPath(key)`: `path.join(this.cacheDir, encodeURIComponent(key) + '.json')`. -/
def getPath (cacheDir key : String) : String :=
  cacheDir ++ "/" ++ encodeURIComponent key ++ ".json"

/-- `DiskMemoryCache.get`: memory tier first (tag `memory`); else read the
persisted file and deserialize, backfilling the memory tier (tag `disk`);
a read or parse failure is caught and reported as a miss. -/
def cacheGet {V : Type} (codec : Codec V) (cacheDir : String)
    (st : DMCacheState V) (fs : Fs) (key : String) :
    (Option V × Option Source) × DMCacheState V :=
  match lookupA st.mem key with
  | some v =>
    ((some v, some Source.memory),
      { st with stats := { st.stats with fromMemory := st.stats.fromMemory + 1 } })
  | none =>
    match lookupA fs.files (getPath cacheDir key) with
    | none => ((none, none), st)
    | some data =>
      match codec.parse data with
      | none => ((none, none), st)
      | some v =>
        ((some v, some Source.disk),
          { mem := alSet st.mem key v,
            stats := { st.stats with fromDisk := st.stats.fromDisk + 1 } })

/-- `DiskMemoryCache.set`: write the memory tier, then durably write the
serialized value to the namespaced path (directory creation is implicit in the
path map). -/
def cacheSet {V : Type} (codec : Codec V) (cacheDir : String)
    (st : DMCacheState V) (fs : Fs) (key : String) (v : V) :
    DMCacheState V × Fs :=
  ({ st with mem := alSet st.mem key v },
    { files := alSet fs.files (getPath cacheDir key) (codec.stringify v) })

/-- `withCache(cache, fn)` applied to an already-string key (the source first
reduces a non-string key with `JSON.stringify`; the claims quantify over the
derived string key): consult the cache; on a hit return the cached value; on a
miss count an API call, invoke the underlying fetch, store and return its
value. -/
def withCache {V : Type} (codec : Codec V) (cacheDir : String)
    (fn : String → V) (st : DMCacheState V) (fs : Fs) (key : String) :
    V × DMCacheState V × Fs :=
  let g := cacheGet codec cacheDir st fs key
  match g.1.1 with
  | some v => (v, g.2, fs)
  | none =>
    let st1 := { g.2 with stats := { g.2.stats with fromApi := g.2.stats.fromApi + 1 } }
    let v := fn key
    let sf := cacheSet codec cacheDir st1 fs key v
    (v, sf.1, sf.2)

/-! ## Data model (fields the program reads from the remote records) -/

/-- A `{ name }` resource reference (`ability.name`, `type.name`, `stat.name`,
`generation`, `growth_rate`, `color`, `shape`, egg-group entries, form refs). -/
structure NamedRes where
  name : String
deriving DecidableEq, Repr

/-- An entry of a localized `names` list: `{ name, language: { name } }`. -/
structure LangName where
  name : String
  language : NamedRes
deriving DecidableEq, Repr

/-- An entry of `specie.genera`: `{ genus, language: { name } }`. -/
structure GenusEntry where
  genus : String
  language : NamedRes
deriving DecidableEq, Repr

/-- An entry of `variant.types`: `{ type: { name } }` (`slot` is unused). -/
structure TypeSlot where
  ttype : NamedRes
deriving DecidableEq, Repr

/-- An entry of `variant.abilities`: `{ ability: { name }, is_hidden }`
(`slot` is unused by the program). -/
structure AbilitySlot where
  ability : NamedRes
  is_hidden : Bool
deriving DecidableEq, Repr

/-- An entry of `variant.stats`: `{ stat: { name }, base_stat, effort }`. -/
structure StatSlot where
  stat : NamedRes
  base_stat : Int
  effort : Int
deriving DecidableEq, Repr

/-- A fetched `PokemonForm`: the fields the projector reads. -/
structure FormRec where
  name : String
  is_default : Bool
  names : List LangName
deriving DecidableEq, Repr

/-- A fetched `Pokemon` ("variant"): the fields the program reads. -/
structure Variant where
  name : String
  is_default : Bool
  types : List TypeSlot
  abilities : List AbilitySlot
  stats : List StatSlot
  height : Int
  weight : Int
  base_experience : Int
  forms : List NamedRes
deriving DecidableEq, Repr

/-- A fetched `PokemonSpecies`: the fields the program reads. -/
structure Species where
  id : Int
  name : String
  names : List LangName
  genera : List GenusEntry
  generation : NamedRes
  growth_rate : NamedRes
  is_baby : Bool
  is_legendary : Bool
  is_mythical : Bool
  capture_rate : Int
  base_happiness : Int
  hatch_counter : Int
  gender_rate : Int
  egg_groups : List NamedRes
  color : NamedRes
  shape : NamedRes
deriving DecidableEq, Repr

/-- An entry of `abilityData.effect_entries`
(`{ language: { name }, short_effect?: string }`). -/
structure EffectEntry where
  language : NamedRes
  short_effect : Option String
deriving DecidableEq, Repr

/-- A fetched `Ability`: the fields the program reads (`effect_entries` is
accessed through optional chaining, hence may be absent). -/
structure AbilityData where
  names : List LangName
  effect_entries : Option (List EffectEntry)
deriving DecidableEq, Repr

/-- One value of `abilitiesMap`: `{ name, description }`. -/
structure AbilityInfo where
  name : String
  description : String
deriving DecidableEq, Repr

/-! ## Label tables (src/models.ts) -/

/-- `GenerationNumber` (Record<string, number>). -/
def generationNumber : List (String × Int) :=
  [("generation-i", 1), ("generation-ii", 2), ("generation-iii", 3),
   ("generation-iv", 4), ("generation-v", 5), ("generation-vi", 6),
   ("generation-vii", 7), ("generation-viii", 8), ("generation-ix", 9)]

/-- `TypeLabels`. -/
def typeLabels : List (String × String) :=
  [("normal", "Normal"), ("fighting", "Fighting"), ("flying", "Flying"),
   ("poison", "Poison"), ("ground", "Ground"), ("rock", "Rock"),
   ("bug", "Bug"), ("ghost", "Ghost"), ("steel", "Steel"), ("fire", "Fire"),
   ("water", "Water"), ("grass", "Grass"), ("electric", "Electric"),
   ("psychic", "Psychic"), ("ice", "Ice"), ("dragon", "Dragon"),
   ("dark", "Dark"), ("fairy", "Fairy")]

/-- `EggGroupLabels`. -/
def eggGroupLabels : List (String × String) :=
  [("monster", "Monster"), ("water1", "Water 1"), ("bug", "Bug"),
   ("flying", "Flying"), ("ground", "Ground"), ("fairy", "Fairy"),
   ("plant", "Plant"), ("humanshape", "Human-Like"), ("water3", "Water 3"),
   ("mineral", "Mineral"), ("indeterminate", "Amorphous"),
   ("water2", "Water 2"), ("ditto", "Ditto"), ("dragon", "Dragon"),
   ("no-eggs", "Undiscovered")]

/-- `GrowthRateLabels`. -/
def growthRateLabels : List (String × String) :=
  [("slow", "Slow"), ("medium", "Medium"), ("fast", "Fast"),
   ("medium-slow", "Medium Slow"), ("slow-then-very-fast", "Erratic"),
   ("fast-then-very-slow", "fluctuating")]

/-- `ColorLabels`. -/
def colorLabels : List (String × String) :=
  [("black", "Black"), ("blue", "Blue"), ("brown", "Brown"), ("gray", "Gray"),
   ("green", "Green"), ("pink", "Pink"), ("purple", "Purple"), ("red", "Red"),
   ("white", "White"), ("yellow", "Yellow")]

/-- `ShapeLabels`. -/
def shapeLabels : List (String × String) :=
  [("ball", "Ball"), ("squiggle", "Squiggle"), ("fish", "Fish"),
   ("arms", "Arms"), ("blob", "Blob"), ("upright", "Upright"),
   ("legs", "Legs"), ("quadruped", "Quadruped"), ("wings", "Wings"),
   ("tentacles", "Tentacles"), ("heads", "Heads"), ("humanoid", "Humanoid"),
   ("bug-wings", "Bug wings"), ("armor", "Armor")]

/-! ## Projection helpers (src/index.ts 733-740 and the row literal 922-1044) -/

/-- `getEnglishProp(arr, 'name', fallback)`: `undefined` array or no English
entry yields the fallback. -/
def getEnglishPropName (arr : Option (List LangName)) (fallback : String) : String :=
  match arr with
  | none => fallback
  | some l =>
    match l.find? (fun n => n.language.name == "en") with
    | some e => e.name
    | none => fallback

/-- `getEnglishProp(arr, 'genus', fallback)` (the `genus` instantiation). -/
def getEnglishPropGenus (arr : Option (List GenusEntry)) (fallback : String) : String :=
  match arr with
  | none => fallback
  | some l =>
    match l.find? (fun n => n.language.name == "en") with
    | some e => e.genus
    | none => fallback

/-- `variant.stats.find(s => s.stat.name === k)?.base_stat ?? 0`. -/
def statBase (stats : List StatSlot) (k : String) : Int :=
  (((stats.find? (fun s => s.stat.name == k)).map (fun s => s.base_stat)).getD 0)

/-- `variant.stats.find(s => s.stat.name === k)?.effort ?? 0`. -/
def statEffort (stats : List StatSlot) (k : String) : Int :=
  (((stats.find? (fun s => s.stat.name == k)).map (fun s => s.effort)).getD 0)

/-- The ability display-name chain
`abilitiesMap[k]?.name ?? k ?? undefined` where the slot key `k` may itself be
`undefined` (absent slot). -/
def resolveAbilityName (m : List (String × AbilityInfo)) (k : Option String) :
    Option String :=
  match jsIndex m k with
  | some info => some info.name
  | none => k

/-- The ability description chain
`abilitiesMap[k]?.description ?? k ?? ''` where the slot key `k` may itself be
`undefined` (absent slot). -/
def resolveAbilityDesc (m : List (String × AbilityInfo)) (k : Option String) :
    String :=
  match jsIndex m k with
  | some info => info.description
  | none => (match k with | some s => s | none => "")

/-- `abilityData.effect_entries?.find(e => e.language.name === 'en')?.short_effect`. -/
def englishShortEffect (d : AbilityData) : Option String :=
  (d.effect_entries.bind
    (fun l => l.find? (fun e => e.language.name == "en"))).bind
      (fun e => e.short_effect)

/-- The `abilitiesMap` value built for one fetched ability
(src/index.ts 883-891): English display name falling back to the raw
identifier, English short-effect falling back to the empty string. -/
def buildAbilityInfo (abilityName : String) (d : AbilityData) : AbilityInfo :=
  { name := getEnglishPropName (some d.names) abilityName,
    description := (englishShortEffect d).getD "" }

/-- `specie.gender_rate >= 0 ? (specie.gender_rate / 8) * 100 : undefined`.
All the double-precision operations involved are exact on these inputs, so the
field is embedded in `ℚ`. -/
def genderFemaleOf (r : Int) : Option ℚ :=
  if 0 ≤ r then some (((r : ℚ) / 8) * 100) else none

/-- `specie.gender_rate >= 0 ? 100 - (specie.gender_rate / 8) * 100 : undefined`. -/
def genderMaleOf (r : Int) : Option ℚ :=
  if 0 ≤ r then some (100 - ((r : ℚ) / 8) * 100) else none

/-- `specie.gender_rate === -1`. -/
def genderlessOf (r : Int) : Bool :=
  r = -1

/-- The category label chain (src/index.ts 924-930): `Baby`, else `Legendary`,
else `Mythical`, else `Ordinary`. -/
def categoryOf (s : Species) : String :=
  if s.is_baby then "Baby"
  else if s.is_legendary then "Legendary"
  else if s.is_mythical then "Mythical"
  else "Ordinary"

/-- `specie.id.toString().padStart(4, '0')`. -/
def padStart4 (s : String) : String :=
  if 4 ≤ s.length then s
  else String.mk (List.replicate (4 - s.length) '0') ++ s

/-- The output record, fields in the construction order of the row object
literal (src/index.ts 938-1041); that order is what `Object.keys` /
`Object.values` observe during serialization.  Field types follow the values
actually assigned: `Option` marks expressions that can evaluate to
`undefined`. -/
structure Row where
  dexId : Int
  imageUrl : String
  speciesSlug : String
  slug : String
  species : String
  variant : String
  genera : String
  generation : Int
  type1 : Option String
  type2 : Option String
  height : ℚ
  weight : ℚ
  ability1 : Option String
  ability2 : Option String
  abilityHidden : Option String
  ability1Description : String
  ability2Description : String
  abilityHiddenDescription : String
  hp : Int
  attack : Int
  defense : Int
  specialAttack : Int
  specialDefense : Int
  speed : Int
  evHp : Int
  evAttack : Int
  evDefense : Int
  evSpecialAttack : Int
  evSpecialDefense : Int
  evSpeed : Int
  catchRate : Int
  baseHappiness : Int
  baseExp : Int
  totalExp : Int
  growthRate : Option String
  genderMale : Option ℚ
  genderFemale : Option ℚ
  genderless : Bool
  eggCycles : Int
  eggGroup1 : Option String
  eggGroup2 : Option String
  color : Option String
  shape : Option String
  category : String

/-- One iteration of `variants.map(...)` inside the row-building `flatMap`
(src/index.ts 931-1043), as a function of the ability table `am`, the
growth-rate table `gm`, the variant-to-forms table `fm`, the species and the
variant.  The two unguarded accesses `variant.types[0]!.type.name` and
`variant.abilities[0]!.ability.name` throw a `TypeError` on an empty list;
a throw is `none`. -/
def projectRow (am : List (String × AbilityInfo)) (gm : List (String × Int))
    (fm : List (String × List FormRec)) (specie : Species) (variant : Variant) :
    Option Row :=
  match variant.types with
  | [] => none
  | t0 :: _ =>
    match variant.abilities with
    | [] => none
    | a0 :: _ =>
      let forms := (lookupA fm variant.name).getD []
      let variantName :=
        if variant.is_default || specie.name == variant.name
          then getEnglishPropName (some specie.names) ""
          else getEnglishPropName ((forms.find? (fun f => f.is_default)).map
            (fun f => f.names)) ""
      let imageId := padStart4 (toString specie.id)
      some
        { dexId := specie.id,
          imageUrl :=
            if variant.is_default
              then "https://raw.githubusercontent.com/blai30/PokemonSpritesDump/refs/heads/main/sprites/sprite_"
                ++ imageId ++ "_s0.webp"
              else "https://raw.githubusercontent.com/blai30/PokemonSpritesDump/refs/heads/main/sprites/sprite_"
                ++ imageId ++ "_" ++ variant.name ++ "_s0.webp",
          speciesSlug := specie.name,
          slug := variant.name,
          species := getEnglishPropName (some specie.names) "",
          variant := variantName,
          genera := getEnglishPropGenus (some specie.genera) "",
          generation := (lookupA generationNumber specie.generation.name).getD 0,
          type1 := lookupA typeLabels t0.ttype.name,
          type2 :=
            if 1 < variant.types.length
              then jsIndex typeLabels ((variant.types[1]?).map (fun t => t.ttype.name))
              else none,
          height := (variant.height : ℚ) / 10,
          weight := (variant.weight : ℚ) / 10,
          ability1 := resolveAbilityName am (some a0.ability.name),
          ability2 :=
            resolveAbilityName am ((variant.abilities[1]?).map (fun a => a.ability.name)),
          abilityHidden :=
            resolveAbilityName am
              ((variant.abilities.find? (fun a => a.is_hidden)).map (fun a => a.ability.name)),
          ability1Description := resolveAbilityDesc am (some a0.ability.name),
          ability2Description :=
            resolveAbilityDesc am ((variant.abilities[1]?).map (fun a => a.ability.name)),
          abilityHiddenDescription :=
            resolveAbilityDesc am
              ((variant.abilities.find? (fun a => a.is_hidden)).map (fun a => a.ability.name)),
          hp := statBase variant.stats "hp",
          attack := statBase variant.stats "attack",
          defense := statBase variant.stats "defense",
          specialAttack := statBase variant.stats "special-attack",
          specialDefense := statBase variant.stats "special-defense",
          speed := statBase variant.stats "speed",
          evHp := statEffort variant.stats "hp",
          evAttack := statEffort variant.stats "attack",
          evDefense := statEffort variant.stats "defense",
          evSpecialAttack := statEffort variant.stats "special-attack",
          evSpecialDefense := statEffort variant.stats "special-defense",
          evSpeed := statEffort variant.stats "speed",
          catchRate := specie.capture_rate,
          baseHappiness := specie.base_happiness,
          baseExp := variant.base_experience,
          totalExp := (lookupA gm specie.growth_rate.name).getD 0,
          growthRate := lookupA growthRateLabels specie.growth_rate.name,
          genderMale := genderMaleOf specie.gender_rate,
          genderFemale := genderFemaleOf specie.gender_rate,
          genderless := genderlessOf specie.gender_rate,
          eggCycles := specie.hatch_counter,
          eggGroup1 := jsIndex eggGroupLabels ((specie.egg_groups[0]?).map (fun g => g.name)),
          eggGroup2 := jsIndex eggGroupLabels ((specie.egg_groups[1]?).map (fun g => g.name)),
          color := lookupA colorLabels specie.color.name,
          shape := lookupA shapeLabels specie.shape.name,
          category := categoryOf specie }

/-! ## Table serializer (src/index.ts 1049-1051) -/

/-- `Object.keys(row)` for a row built by the object literal: the property
names in construction order. -/
def rowKeys : List String :=
  ["dexId", "imageUrl", "speciesSlug", "slug", "species", "variant", "genera",
   "generation", "type1", "type2", "height", "weight", "ability1", "ability2",
   "abilityHidden", "ability1Description", "ability2Description",
   "abilityHiddenDescription", "hp", "attack", "defense", "specialAttack",
   "specialDefense", "speed", "evHp", "evAttack", "evDefense",
   "evSpecialAttack", "evSpecialDefense", "evSpeed", "catchRate",
   "baseHappiness", "baseExp", "totalExp", "growthRate", "genderMale",
   "genderFemale", "genderless", "eggCycles", "eggGroup1", "eggGroup2",
   "color", "shape", "category"]

/-- `Object.values(row)` in construction order, each value in its JS string
form (`none` for `undefined`).  `fmt` is the JS number-to-string conversion
for the four non-integral (rational) cells; integers stringify as their
decimal digits and booleans as `true`/`false`. -/
def rowStrings (fmt : ℚ → String) (r : Row) : List (Option String) :=
  [some (toString r.dexId), some r.imageUrl, some r.speciesSlug, some r.slug,
   some r.species, some r.variant, some r.genera, some (toString r.generation),
   r.type1, r.type2, some (fmt r.height), some (fmt r.weight), r.ability1,
   r.ability2, r.abilityHidden, some r.ability1Description,
   some r.ability2Description, some r.abilityHiddenDescription,
   some (toString r.hp), some (toString r.attack), some (toString r.defense),
   some (toString r.specialAttack), some (toString r.specialDefense),
   some (toString r.speed), some (toString r.evHp), some (toString r.evAttack),
   some (toString r.evDefense), some (toString r.evSpecialAttack),
   some (toString r.evSpecialDefense), some (toString r.evSpeed),
   some (toString r.catchRate), some (toString r.baseHappiness),
   some (toString r.baseExp), some (toString r.totalExp), r.growthRate,
   r.genderMale.map fmt, r.genderFemale.map fmt,
   some (if r.genderless then "true" else "false"), some (toString r.eggCycles),
   r.eggGroup1, r.eggGroup2, r.color, r.shape, some r.category]

/-- `Object.keys(rows[0]!).map(toKebab).join(',')` for a nonempty row set. -/
def csvHeaderLine : String :=
  String.intercalate "," (rowKeys.map toKebab)

/-- `Object.values(row).map(csvEscape).join(',')`. -/
def rowLine (fmt : ℚ → String) (r : Row) : String :=
  String.intercalate "," ((rowStrings fmt r).map csvEscape)

/-- `[csvHeaders, ...csvRows].join('\n')`: on an empty row set
`Object.keys(rows[0]!)` dereferences `undefined` and throws, so no artifact is
produced (`none`). -/
def csvContent (fmt : ℚ → String) (rows : List Row) : Option String :=
  match rows with
  | [] => none
  | _ :: _ =>
    some (String.intercalate "\n" (csvHeaderLine :: rows.map (rowLine fmt)))

/-! ## Keyed batch mapper and ability deduplication (src/index.ts 743-762, 861-895) -/

/-- The loop of `batchMap`: windows of `batchSize`, the mapper receives the
global index `i + idx`, results equal to `undefined` are skipped, the rest are
written to `out[String(item)]` (overwriting).  Returns the accumulated record
and the list of items the mapper was invoked on, in invocation order.  `toKey`
is the JS coercion `String(item)`. -/
def batchMapGo {α β : Type} (fn : α → Nat → Option β) (toKey : α → String)
    (batchSize : Nat) :
    Nat → Nat → List α → List (String × β) → List (String × β) × List α
  | 0, _, _, out => (out, [])
  | _ + 1, _, [], out => (out, [])
  | fuel + 1, i, x :: xs, out =>
    let w := (x :: xs).take batchSize
    let rest := (x :: xs).drop batchSize
    let out1 := w.enum.foldl
      (fun o p =>
        match fn p.2 (i + p.1) with
        | some r => alSet o (toKey p.2) r
        | none => o)
      out
    let r2 := batchMapGo fn toKey batchSize fuel (i + batchSize) rest out1
    (r2.1, w ++ r2.2)

/-- `batchMap(items, fn, batchSize, delayMs)`: the returned record together
with the invocation trace.  The inter-window delay only paces timing and does
not influence either component. -/
def batchMapRun {α β : Type} (fn : α → Nat → Option β) (toKey : α → String)
    (batchSize delayMs : Nat) (items : List α) :
    List (String × β) × List α :=
  batchMapGo fn toKey batchSize items.length 0 items []

/-- The record `batchMap` resolves with. -/
def batchMapOut {α β : Type} (fn : α → Nat → Option β) (toKey : α → String)
    (batchSize delayMs : Nat) (items : List α) : List (String × β) :=
  (batchMapRun fn toKey batchSize delayMs items).1

/-- The items the mapper (and hence the wrapped fetch) is invoked on, in
order. -/
def batchMapCalls {α β : Type} (fn : α → Nat → Option β) (toKey : α → String)
    (batchSize delayMs : Nat) (items : List α) : List α :=
  (batchMapRun fn toKey batchSize delayMs items).2

/-- `Array.from(new Set(l))`: first occurrences in insertion order.  `seen`
is the set of elements already emitted. -/
def dedupAux : List String → List String → List String
  | _, [] => []
  | seen, x :: xs =>
    if x ∈ seen then dedupAux seen xs else x :: dedupAux (x :: seen) xs

/-- The multiset of ability identifiers referenced by any variant of any
species, before deduplication (the inner `flatMap`s of src/index.ts 861-869). -/
def rawAbilityNames (species : List Species) (vmap : List (String × List Variant)) :
    List String :=
  species.flatMap (fun s =>
    ((lookupA vmap s.name).getD []).flatMap (fun v =>
      v.abilities.map (fun a => a.ability.name)))

/-- `allAbilityNames`: `Array.from(new Set(...))` over the raw references. -/
def allAbilityNames (species : List Species) (vmap : List (String × List Variant)) :
    List String :=
  dedupAux [] (rawAbilityNames species vmap)


/-! ## Concrete sample records (used by counterexamples and witnesses) -/

/-- Concrete codec used by cache witnesses: booleans with their JSON forms. -/
def boolCodec : Codec Bool :=
  { stringify := fun b => if b then "true" else "false",
    parse := fun s =>
      if s = "true" then some true else if s = "false" then some false else none,
    roundtrip := by intro b; cases b <;> rfl }

/-- A concrete species record. -/
def cSpecie : Species :=
  { id := 1, name := "bulbasaur", names := [], genera := [],
    generation := ⟨"generation-i"⟩, growth_rate := ⟨"medium-slow"⟩,
    is_baby := false, is_legendary := false, is_mythical := false,
    capture_rate := 45, base_happiness := 50, hatch_counter := 20,
    gender_rate := 1, egg_groups := [], color := ⟨"green"⟩,
    shape := ⟨"quadruped"⟩ }

/-- A concrete variant whose only ability is "overgrow" (not hidden). -/
def cVariant : Variant :=
  { name := "bulbasaur", is_default := true, types := [⟨⟨"grass"⟩⟩],
    abilities := [⟨⟨"overgrow"⟩, false⟩], stats := [], height := 7,
    weight := 69, base_experience := 64, forms := [] }

/-- `cVariant` with its abilities list emptied. -/
def cVariantNoAbilities : Variant :=
  { cVariant with abilities := [] }

/-- `cVariant` with its types list emptied. -/
def cVariantNoTypes : Variant :=
  { cVariant with types := [] }

/-- A concrete output row (the projection of `cSpecie`/`cVariant` under empty
lookup tables). -/
def sampleRow : Row :=
  { dexId := 1,
    imageUrl := "https://raw.githubusercontent.com/blai30/PokemonSpritesDump/refs/heads/main/sprites/sprite_0001_s0.webp",
    speciesSlug := "bulbasaur", slug := "bulbasaur", species := "",
    variant := "", genera := "", generation := 1, type1 := some "Grass",
    type2 := none, height := 7 / 10, weight := 69 / 10,
    ability1 := some "overgrow", ability2 := none, abilityHidden := none,
    ability1Description := "overgrow", ability2Description := "",
    abilityHiddenDescription := "", hp := 0, attack := 0, defense := 0,
    specialAttack := 0, specialDefense := 0, speed := 0, evHp := 0,
    evAttack := 0, evDefense := 0, evSpecialAttack := 0, evSpecialDefense := 0,
    evSpeed := 0, catchRate := 45, baseHappiness := 50, baseExp := 64,
    totalExp := 0, growthRate := some "Medium Slow",
    genderMale := some (100 - ((1 : ℚ) / 8) * 100),
    genderFemale := some (((1 : ℚ) / 8) * 100), genderless := false,
    eggCycles := 20, eggGroup1 := none, eggGroup2 := none,
    color := some "Green", shape := some "Quadruped", category := "Ordinary" }



/-- A concrete ability table holding an entry for "overgrow". -/
def cAm : List (String × AbilityInfo) :=
  [("overgrow", { name := "Overgrow",
                  description := "Ups Grass moves in a pinch." })]

/-! ## Helper lemmas -/

lemma lookupA_alSet_self {A : Type} (l : List (String × A)) (key : String) (v : A) :
    lookupA (alSet l key v) key = some v := by
  induction l with
  | nil => simp [alSet, lookupA]
  | cons p rest ih =>
    by_cases h : p.1 = key
    · simp [alSet, h, lookupA]
    · simp [alSet, h, lookupA, ih]

lemma batchGo_fst {α β : Type} (fn : α → β) (bs d : Nat) (hbs : 1 ≤ bs) :
    ∀ (fuel : Nat) (l : List α), l.length ≤ fuel →
      (batchGo fn bs d fuel l).1 = l.map fn := by
  intro fuel
  induction fuel with
  | zero =>
    intro l hl
    have : l = [] := List.length_eq_zero.mp (Nat.le_zero.mp hl)
    subst this; rfl
  | succ fuel ih =>
    intro l hl
    match l with
    | [] => rfl
    | x :: xs =>
      have hlen : ((x :: xs).drop bs).length ≤ fuel := by
        rw [List.length_drop]
        simp only [List.length_cons] at hl ⊢
        omega
      simp only [batchGo]
      rw [ih _ hlen, ← List.map_append, List.take_append_drop]

lemma chunksGo_nil {α : Type} (bs : Nat) : ∀ fuel, chunksGo bs fuel ([] : List α) = [] := by
  intro fuel; cases fuel <;> rfl

lemma batchGo_snd {α β : Type} (fn : α → β) (bs d : Nat) (hbs : 1 ≤ bs) :
    ∀ (fuel : Nat) (l : List α), l.length ≤ fuel →
      (batchGo fn bs d fuel l).2 = intersperseDelays d (chunksGo bs fuel l) := by
  intro fuel
  induction fuel with
  | zero =>
    intro l hl
    have : l = [] := List.length_eq_zero.mp (Nat.le_zero.mp hl)
    subst this; rfl
  | succ fuel ih =>
    intro l hl
    match l with
    | [] => rfl
    | x :: xs =>
      have hlen : ((x :: xs).drop bs).length ≤ fuel := by
        rw [List.length_drop]
        simp only [List.length_cons] at hl ⊢
        omega
      simp only [batchGo, chunksGo]
      rw [ih _ hlen]
      rcases hrest : (x :: xs).drop bs with _ | ⟨y, ys⟩
      · have hbs2 : ¬ bs < (x :: xs).length := by
          have := List.drop_eq_nil_iff_le.mp hrest
          omega
        rw [chunksGo_nil]
        simp only [intersperseDelays]
        have hno : ¬(d ≠ 0 ∧ bs < (x :: xs).length) := fun h => hbs2 h.2
        simp [hno]
        intro _
        simp only [List.length_cons] at hbs2
        omega
      · have hbs2 : bs < (x :: xs).length := by
          by_contra hc
          have : (x :: xs).drop bs = [] := List.drop_eq_nil_iff_le.mpr (by omega)
          rw [this] at hrest; cases hrest
        have hfuel1 : 1 ≤ fuel := by
          have : (y :: ys).length ≤ fuel := hrest ▸ hlen
          simp only [List.length_cons] at this; omega
        rcases fuel with _ | fuel
        · omega
        · simp only [chunksGo, intersperseDelays, hbs2, and_true]

lemma chunksGo_mem {α : Type} (bs : Nat) (hbs : 1 ≤ bs) :
    ∀ (fuel : Nat) (l : List α), l.length ≤ fuel →
      ∀ w ∈ chunksGo bs fuel l, w ≠ [] ∧ w.length ≤ bs := by
  intro fuel
  induction fuel with
  | zero =>
    intro l hl
    have : l = [] := List.length_eq_zero.mp (Nat.le_zero.mp hl)
    subst this; intro w hw; cases hw
  | succ fuel ih =>
    intro l hl
    match l with
    | [] => intro w hw; cases hw
    | x :: xs =>
      have hlen : ((x :: xs).drop bs).length ≤ fuel := by
        rw [List.length_drop]
        simp only [List.length_cons] at hl ⊢
        omega
      intro w hw
      simp only [chunksGo, List.mem_cons] at hw
      rcases hw with hw | hw
      · subst hw
        constructor
        · rcases bs with _ | bs
          · omega
          · simp [List.take]
        · exact List.length_take_le _ _
      · exact ih _ hlen w hw

lemma chunksGo_flatten {α : Type} (bs : Nat) (hbs : 1 ≤ bs) :
    ∀ (fuel : Nat) (l : List α), l.length ≤ fuel →
      (chunksGo bs fuel l).flatten = l := by
  intro fuel
  induction fuel with
  | zero =>
    intro l hl
    have : l = [] := List.length_eq_zero.mp (Nat.le_zero.mp hl)
    subst this; rfl
  | succ fuel ih =>
    intro l hl
    match l with
    | [] => rfl
    | x :: xs =>
      have hlen : ((x :: xs).drop bs).length ≤ fuel := by
        rw [List.length_drop]
        simp only [List.length_cons] at hl ⊢
        omega
      simp only [chunksGo, List.flatten_cons]
      rw [ih _ hlen, List.take_append_drop]

lemma fillAt_mem {α β : Type} (fn : α → β) (w : List α) :
    ∀ (order : List (Fin w.length)) (j : Fin w.length), j ∈ order →
      fillAt fn w order j = some (fn (w.get j)) := by
  intro order
  induction order with
  | nil => intro j h; cases h
  | cons i rest ih =>
    intro j h
    by_cases hj : j = i
    · simp [fillAt, hj]
    · rcases List.mem_cons.mp h with h' | h'
      · exact absurd h' hj
      · simp [fillAt, hj, ih j h']

lemma settleWindow_complete {α β : Type} (fn : α → β) (w : List α)
    (order : List (Fin w.length)) (hall : ∀ j, j ∈ order) :
    settleWindow fn w order = (w.map fn).map some := by
  unfold settleWindow
  have h1 : (fun j => fillAt fn w order j) = fun j => some (fn (w.get j)) :=
    funext fun j => fillAt_mem fn w order j (hall j)
  rw [h1]
  apply List.ext_get
  · simp
  · intro n h1 h2
    simp [List.get_ofFn]

lemma batchMapGo_calls {α β : Type} (fn : α → Nat → Option β) (toKey : α → String)
    (bs : Nat) (hbs : 1 ≤ bs) :
    ∀ (fuel : Nat) (i : Nat) (l : List α) (out : List (String × β)),
      l.length ≤ fuel → (batchMapGo fn toKey bs fuel i l out).2 = l := by
  intro fuel
  induction fuel with
  | zero =>
    intro i l out hl
    have : l = [] := List.length_eq_zero.mp (Nat.le_zero.mp hl)
    subst this; rfl
  | succ fuel ih =>
    intro i l out hl
    match l with
    | [] => rfl
    | x :: xs =>
      have hlen : ((x :: xs).drop bs).length ≤ fuel := by
        rw [List.length_drop]
        simp only [List.length_cons] at hl ⊢
        omega
      simp only [batchMapGo]
      rw [ih _ _ _ hlen, List.take_append_drop]

lemma count_dedupAux (a : String) :
    ∀ (l seen : List String),
      (dedupAux seen l).count a = if a ∈ l ∧ a ∉ seen then 1 else 0 := by
  intro l
  induction l with
  | nil => intro seen; simp [dedupAux]
  | cons x xs ih =>
    intro seen
    by_cases hx : x ∈ seen
    · rw [show dedupAux seen (x :: xs) = dedupAux seen xs by simp [dedupAux, hx]]
      rw [ih seen]
      by_cases hax : a = x
      · subst hax
        simp [hx]
      · simp [List.mem_cons, hax]
    · rw [show dedupAux seen (x :: xs) = x :: dedupAux (x :: seen) xs by
        simp [dedupAux, hx]]
      rw [List.count_cons, ih (x :: seen)]
      by_cases hax : a = x
      · subst hax
        simp [hx, List.mem_cons]
      · simp only [List.mem_cons, beq_iff_eq]
        split_ifs <;> simp_all <;> omega

/-! ## Claim theorems -/

/-- **C1.** For every key list, fetch function, window size `w ≥ 1` and delay:
`batch` returns the fetch results in input order (the settlement-order model
shows order independence within a window); the trace partitions the keys into
consecutive nonempty windows of at most `w` items, each awaited in full before
the next starts (windows are sequential events in the trace); and a pacing
delay appears exactly between consecutive windows — never after the last —
whenever the delay is nonzero (a zero delay inserts no pause, matching the
source's truthiness guard). -/
theorem batch_order_windows_pacing {α β : Type} (fn : α → β)
    (bs d : Nat) (items : List α) (hbs : 1 ≤ bs) :
    batchResults fn bs d items = items.map fn ∧
    batchTrace fn bs d items = intersperseDelays d (chunks bs items) ∧
    (∀ w ∈ chunks bs items, w ≠ [] ∧ w.length ≤ bs) ∧
    (chunks bs items).flatten = items ∧
    (∀ (w : List α) (order : List (Fin w.length)), (∀ j, j ∈ order) →
      settleWindow fn w order = (w.map fn).map some) := by
  refine ⟨?_, ?_, ?_, ?_, ?_⟩
  · exact batchGo_fst fn bs d hbs items.length items le_rfl
  · exact batchGo_snd fn bs d hbs items.length items le_rfl
  · exact chunksGo_mem bs hbs items.length items le_rfl
  · exact chunksGo_flatten bs hbs items.length items le_rfl
  · intro w order hall
    exact settleWindow_complete fn w order hall

/-- Witness for C1 at a concrete run: five keys, window size 2, delay 7. -/
theorem batch_order_windows_pacing_witness :
    1 ≤ 2 ∧
    (batchResults (fun x => x + 10) 2 7 [1, 2, 3, 4, 5] = [1, 2, 3, 4, 5].map (fun x => x + 10) ∧
     batchTrace (fun x => x + 10) 2 7 [1, 2, 3, 4, 5] = intersperseDelays 7 (chunks 2 [1, 2, 3, 4, 5]) ∧
     (∀ w ∈ chunks 2 [1, 2, 3, 4, 5], w ≠ [] ∧ w.length ≤ 2) ∧
     (chunks 2 [1, 2, 3, 4, 5]).flatten = [1, 2, 3, 4, 5] ∧
     (∀ (w : List Nat) (order : List (Fin w.length)), (∀ j, j ∈ order) →
       settleWindow (fun x => x + 10) w order = (w.map (fun x => x + 10)).map some)) :=
  ⟨by decide, batch_order_windows_pacing (fun x => x + 10) 2 7 [1, 2, 3, 4, 5] (by decide)⟩

/-- **C2.** For every entity-type namespace `dir`, key and JSON-serializable
value (`codec.roundtrip` is exactly that assumption): after
`set(dir, key, v)`, a `get` in a fresh run (in-memory tier discarded, any
fresh counters) returns a value deep-equal to `v` tagged `disk` and backfills
the in-memory table, so the next `get` of the key returns `v` tagged `memory`;
and a `get` within the same run (memory tier intact) returns `v` tagged
`memory`. -/
theorem cache_set_get_round_trip {V : Type} (codec : Codec V) (dir key : String)
    (v : V) (st : DMCacheState V) (fs : Fs) (freshStats : BatchStats) :
    (cacheGet codec dir (cacheSet codec dir st fs key v).1
        (cacheSet codec dir st fs key v).2 key).1 = (some v, some Source.memory) ∧
    (cacheGet codec dir ⟨[], freshStats⟩
        (cacheSet codec dir st fs key v).2 key).1 = (some v, some Source.disk) ∧
    lookupA (cacheGet codec dir ⟨[], freshStats⟩
        (cacheSet codec dir st fs key v).2 key).2.mem key = some v ∧
    (cacheGet codec dir
        (cacheGet codec dir ⟨[], freshStats⟩ (cacheSet codec dir st fs key v).2 key).2
        (cacheSet codec dir st fs key v).2 key).1 = (some v, some Source.memory) := by
  have hmem : lookupA (alSet st.mem key v) key = some v := lookupA_alSet_self _ _ _
  have hdisk : lookupA (alSet fs.files (getPath dir key) (codec.stringify v))
      (getPath dir key) = some (codec.stringify v) := lookupA_alSet_self _ _ _
  refine ⟨?_, ?_, ?_, ?_⟩
  · simp [cacheGet, cacheSet, hmem]
  · simp [cacheGet, cacheSet, lookupA, hdisk, codec.roundtrip]
  · simp [cacheGet, cacheSet, lookupA, hdisk, codec.roundtrip, lookupA_alSet_self]
  · simp [cacheGet, cacheSet, lookupA, hdisk, codec.roundtrip, lookupA_alSet_self]

/-- **C6.** For every key whose persisted record is malformed
(`codec.parse data = none`) and absent from the memory tier: `get` returns a
miss (no error — `cacheGet` is total and reports `(none, none)`); the
cache-wrapped fetch then invokes the underlying fetch (`fromApi` counter
incremented), returns the freshly fetched value, stores it in the memory tier
and overwrites the corrupt persisted record with the new serialization. -/
theorem cache_corruption_recovered {V : Type} (codec : Codec V)
    (dir key data : String) (fn : String → V) (st : DMCacheState V) (fs : Fs)
    (hmem : lookupA st.mem key = none)
    (hdisk : lookupA fs.files (getPath dir key) = some data)
    (hbad : codec.parse data = none) :
    (cacheGet codec dir st fs key).1 = (none, none) ∧
    (withCache codec dir fn st fs key).1 = fn key ∧
    lookupA (withCache codec dir fn st fs key).2.1.mem key = some (fn key) ∧
    lookupA (withCache codec dir fn st fs key).2.2.files (getPath dir key)
      = some (codec.stringify (fn key)) ∧
    (withCache codec dir fn st fs key).2.1.stats.fromApi = st.stats.fromApi + 1 := by
  refine ⟨?_, ?_, ?_, ?_, ?_⟩ <;>
    simp [withCache, cacheGet, cacheSet, hmem, hdisk, hbad, lookupA_alSet_self]

/-- Witness for C6 at a concrete corrupt store: the persisted record
"garbage" does not deserialize, the wrapped fetch refetches `true` and
overwrites. -/
theorem cache_corruption_recovered_witness :
    (cacheGet boolCodec "cache/species" ⟨[], ⟨0, 0, 0⟩⟩
        ⟨[(getPath "cache/species" "bulbasaur", "garbage")]⟩ "bulbasaur").1
      = (none, none) ∧
    (withCache boolCodec "cache/species" (fun _ => true) ⟨[], ⟨0, 0, 0⟩⟩
        ⟨[(getPath "cache/species" "bulbasaur", "garbage")]⟩ "bulbasaur").1 = true ∧
    lookupA (withCache boolCodec "cache/species" (fun _ => true) ⟨[], ⟨0, 0, 0⟩⟩
        ⟨[(getPath "cache/species" "bulbasaur", "garbage")]⟩ "bulbasaur").2.1.mem
      "bulbasaur" = some true ∧
    lookupA (withCache boolCodec "cache/species" (fun _ => true) ⟨[], ⟨0, 0, 0⟩⟩
        ⟨[(getPath "cache/species" "bulbasaur", "garbage")]⟩ "bulbasaur").2.2.files
      (getPath "cache/species" "bulbasaur")
      = some (boolCodec.stringify true) ∧
    (withCache boolCodec "cache/species" (fun _ => true) ⟨[], ⟨0, 0, 0⟩⟩
        ⟨[(getPath "cache/species" "bulbasaur", "garbage")]⟩ "bulbasaur").2.1.stats.fromApi
      = (0 : Nat) + 1 := by
  have h := cache_corruption_recovered boolCodec "cache/species" "bulbasaur" "garbage"
    (fun _ => true) ⟨[], ⟨0, 0, 0⟩⟩ ⟨[(getPath "cache/species" "bulbasaur", "garbage")]⟩
    (by rfl) (by simp [lookupA]) (by rfl)
  exact h

/-- **C3 (counterexample).** The claim asserts that a description field falls
back to the empty string when the ability table has no entry for the slot's
identifier.  On the code, with an empty ability table and a variant whose
first ability is "overgrow", `ability1Description` is the raw identifier
"overgrow", not the empty string: the fallback chain is
`abilitiesMap[k]?.description ?? k ?? ''`, so the raw identifier shadows the
empty-string default whenever the slot itself is present. -/
theorem ability_desc_table_miss_counterexample :
    lookupA ([] : List (String × AbilityInfo)) "overgrow" = none ∧
    (projectRow [] [] [] cSpecie cVariant).map (fun r => r.ability1Description)
      = some "overgrow" ∧
    ¬((projectRow [] [] [] cSpecie cVariant).map (fun r => r.ability1Description)
      = some "") := by
  refine ⟨rfl, rfl, by decide⟩

/-- **C3 (amended).** For every ability slot of a row: the display-name field
resolves through the ability table, falling back to the raw identifier when
the table has no entry (and is absent when the slot itself is absent); the
description field resolves to the table entry's short-effect text — which is
the empty string when the fetched ability had no English short-effect —
falling back to the raw identifier when the table has no entry for a present
slot, and to the empty string when the slot itself is absent (the JS index
coerces the absent key to "undefined"; the table, keyed by ability
identifiers, has no such entry). -/
theorem ability_resolution_amended (am : List (String × AbilityInfo))
    (gm : List (String × Int)) (fm : List (String × List FormRec))
    (specie : Species) (variant : Variant) (t0 : TypeSlot) (ts : List TypeSlot)
    (a0 : AbilitySlot) (arest : List AbilitySlot)
    (hty : variant.types = t0 :: ts) (hab : variant.abilities = a0 :: arest) :
    ((projectRow am gm fm specie variant).map (fun r => r.ability1)
        = some (resolveAbilityName am (some a0.ability.name)) ∧
      (projectRow am gm fm specie variant).map (fun r => r.ability1Description)
        = some (resolveAbilityDesc am (some a0.ability.name)) ∧
      (projectRow am gm fm specie variant).map (fun r => r.ability2)
        = some (resolveAbilityName am
            ((variant.abilities[1]?).map (fun a => a.ability.name))) ∧
      (projectRow am gm fm specie variant).map (fun r => r.ability2Description)
        = some (resolveAbilityDesc am
            ((variant.abilities[1]?).map (fun a => a.ability.name))) ∧
      (projectRow am gm fm specie variant).map (fun r => r.abilityHidden)
        = some (resolveAbilityName am
            ((variant.abilities.find? (fun a => a.is_hidden)).map
              (fun a => a.ability.name))) ∧
      (projectRow am gm fm specie variant).map (fun r => r.abilityHiddenDescription)
        = some (resolveAbilityDesc am
            ((variant.abilities.find? (fun a => a.is_hidden)).map
              (fun a => a.ability.name)))) ∧
    (∀ (k : String) (info : AbilityInfo), lookupA am k = some info →
      resolveAbilityName am (some k) = some info.name ∧
      resolveAbilityDesc am (some k) = info.description) ∧
    (∀ (k : String), lookupA am k = none →
      resolveAbilityName am (some k) = some k ∧
      resolveAbilityDesc am (some k) = k) ∧
    (lookupA am "undefined" = none →
      resolveAbilityName am none = none ∧ resolveAbilityDesc am none = "") ∧
    (∀ (nm : String) (d : AbilityData), englishShortEffect d = none →
      (buildAbilityInfo nm d).description = "") := by
  refine ⟨?_, ?_, ?_, ?_, ?_⟩
  · simp only [projectRow, hty, hab]
    exact ⟨rfl, rfl, rfl, rfl, rfl, rfl⟩
  · intro k info hk
    constructor <;> simp [resolveAbilityName, resolveAbilityDesc, jsIndex, hk]
  · intro k hk
    constructor <;> simp [resolveAbilityName, resolveAbilityDesc, jsIndex, hk]
  · intro hk
    constructor <;> simp [resolveAbilityName, resolveAbilityDesc, jsIndex, hk]
  · intro nm d h
    simp [buildAbilityInfo, h]

/-- Witness for C3 (amended) at a concrete variant and one-entry table. -/
theorem ability_resolution_amended_witness :
    cVariant.types = (⟨⟨"grass"⟩⟩ : TypeSlot) :: [] ∧
    cVariant.abilities = (⟨⟨"overgrow"⟩, false⟩ : AbilitySlot) :: [] ∧
    (projectRow cAm [] [] cSpecie cVariant).map (fun r => r.ability1)
      = some (resolveAbilityName cAm (some "overgrow")) :=
  ⟨rfl, rfl,
    (ability_resolution_amended cAm [] [] cSpecie cVariant
      ⟨⟨"grass"⟩⟩ [] ⟨⟨"overgrow"⟩, false⟩ [] rfl rfl).1.1⟩

/-- **C4.** For every species gender-ratio value `r` (an integer; the
double-precision operations `r/8*100` and `100 - x` are exact for
`r ∈ [0,8]`, so the `ℚ` embedding is exact): for integer `r ∈ [0,8]` the
female field is `(r/8)*100` and the male field `100 - (r/8)*100` exactly and
they sum to exactly 100; both fields are present iff `r ≥ 0`; and the
genderless flag holds iff `r = -1`. -/
theorem gender_fields_spec (r : Int) :
    (0 ≤ r → r ≤ 8 →
      genderFemaleOf r = some (((r : ℚ) / 8) * 100) ∧
      genderMaleOf r = some (100 - ((r : ℚ) / 8) * 100) ∧
      ∃ f m, genderFemaleOf r = some f ∧ genderMaleOf r = some m ∧
        f + m = 100) ∧
    ((genderFemaleOf r).isSome = true ↔ 0 ≤ r) ∧
    ((genderMaleOf r).isSome = true ↔ 0 ≤ r) ∧
    (genderlessOf r = true ↔ r = -1) := by
  refine ⟨?_, ?_, ?_, ?_⟩
  · intro h0 _
    refine ⟨by simp [genderFemaleOf, h0], by simp [genderMaleOf, h0],
      ⟨((r : ℚ) / 8) * 100, 100 - ((r : ℚ) / 8) * 100,
        by simp [genderFemaleOf, h0], by simp [genderMaleOf, h0], by ring⟩⟩
  · by_cases h : 0 ≤ r <;> simp [genderFemaleOf, h]
  · by_cases h : 0 ≤ r <;> simp [genderMaleOf, h]
  · simp [genderlessOf]

/-- Witness for C4 at `r = 1` (present, exact sum) and `r = -1` (genderless). -/
theorem gender_fields_spec_witness :
    (0 ≤ (1 : Int) ∧ (1 : Int) ≤ 8) ∧
    genderFemaleOf 1 = some (((1 : Int) : ℚ) / 8 * 100) ∧
    genderMaleOf 1 = some (100 - ((1 : Int) : ℚ) / 8 * 100) ∧
    (∃ f m, genderFemaleOf 1 = some f ∧ genderMaleOf 1 = some m ∧
      f + m = 100) ∧
    (genderlessOf (-1) = true ↔ (-1 : Int) = -1) := by
  have h := (gender_fields_spec 1).1 (by decide) (by decide)
  exact ⟨⟨by decide, by decide⟩, h.1, h.2.1, h.2.2, (gender_fields_spec (-1)).2.2.2⟩

/-- **C5.** For every species record the category label follows the fixed
precedence Baby, then Legendary, then Mythical, else Ordinary; in particular
a species flagged legendary is never labelled Mythical, and one flagged both
legendary and mythical (and not baby) is labelled Legendary. -/
theorem category_precedence_spec (s : Species) :
    (s.is_baby = true → categoryOf s = "Baby") ∧
    (s.is_baby = false → s.is_legendary = true → categoryOf s = "Legendary") ∧
    (s.is_baby = false → s.is_legendary = false → s.is_mythical = true →
      categoryOf s = "Mythical") ∧
    (s.is_baby = false → s.is_legendary = false → s.is_mythical = false →
      categoryOf s = "Ordinary") ∧
    (s.is_legendary = true → categoryOf s ≠ "Mythical") ∧
    (s.is_baby = false → s.is_legendary = true → s.is_mythical = true →
      categoryOf s = "Legendary") := by
  refine ⟨?_, ?_, ?_, ?_, ?_, ?_⟩
  · intro h; simp [categoryOf, h]
  · intro h1 h2; simp [categoryOf, h1, h2]
  · intro h1 h2 h3; simp [categoryOf, h1, h2, h3]
  · intro h1 h2 h3; simp [categoryOf, h1, h2, h3]
  · intro h
    cases hb : s.is_baby <;> simp [categoryOf, hb, h]
  · intro h1 h2 _; simp [categoryOf, h1, h2]

/-- Witness for C5 at a species flagged both legendary and mythical. -/
theorem category_precedence_spec_witness :
    categoryOf { cSpecie with is_legendary := true, is_mythical := true }
      = "Legendary" ∧
    categoryOf { cSpecie with is_legendary := true, is_mythical := true }
      ≠ "Mythical" := by
  have h := category_precedence_spec
    { cSpecie with is_legendary := true, is_mythical := true }
  exact ⟨h.2.2.2.2.2 rfl rfl rfl, h.2.2.2.2.1 rfl⟩

/-- **C7.** For every collection of species and their variants: the list of
ability identifiers passed to the ability fetch stage contains each distinct
referenced identifier exactly once (count 1 for referenced identifiers, 0
otherwise — deduplication across all variants of all species, with membership
preserved), and the keyed batch mapper invokes its mapper (hence the wrapped
fetch) exactly once per list entry, in order; so an ability referenced by
several variants is fetched exactly once per run. -/
theorem ability_dedup_fetch_once (species : List Species)
    (vmap : List (String × List Variant)) :
    (∀ a : String, (allAbilityNames species vmap).count a
      = if a ∈ rawAbilityNames species vmap then 1 else 0) ∧
    (∀ a : String, a ∈ allAbilityNames species vmap ↔
      a ∈ rawAbilityNames species vmap) ∧
    (∀ {β : Type} (fn : String → Nat → Option β) (toKey : String → String)
      (bs d : Nat) (l : List String), 1 ≤ bs →
        batchMapCalls fn toKey bs d l = l) := by
  have hcount : ∀ a : String, (allAbilityNames species vmap).count a
      = if a ∈ rawAbilityNames species vmap then 1 else 0 := by
    intro a
    rw [show allAbilityNames species vmap
        = dedupAux [] (rawAbilityNames species vmap) from rfl]
    rw [count_dedupAux]
    simp
  refine ⟨hcount, ?_, ?_⟩
  · intro a
    constructor
    · intro h
      have hpos : 0 < (allAbilityNames species vmap).count a :=
        List.count_pos_iff_mem.mpr h
      rw [hcount a] at hpos
      by_cases hm : a ∈ rawAbilityNames species vmap
      · exact hm
      · simp [hm] at hpos
    · intro h
      apply List.count_pos_iff_mem.mp
      rw [hcount a]
      simp [h]
  · intro β fn toKey bs d l hbs
    exact batchMapGo_calls fn toKey bs hbs l.length 0 l [] le_rfl

/-- Witness for C7 at one species with two variants sharing ability
"overgrow": the deduplicated list counts it once and the mapper is invoked
once per entry. -/
theorem ability_dedup_fetch_once_witness :
    (1 : Nat) ≤ 20 ∧
    (allAbilityNames [cSpecie] [("bulbasaur", [cVariant, cVariant])]).count
        "overgrow"
      = (if "overgrow" ∈ rawAbilityNames [cSpecie]
          [("bulbasaur", [cVariant, cVariant])] then 1 else 0) ∧
    batchMapCalls (fun _ _ => some (0 : Nat)) id 20 100
        (allAbilityNames [cSpecie] [("bulbasaur", [cVariant, cVariant])])
      = allAbilityNames [cSpecie] [("bulbasaur", [cVariant, cVariant])] := by
  have h := ability_dedup_fetch_once [cSpecie] [("bulbasaur", [cVariant, cVariant])]
  exact ⟨by decide, h.1 "overgrow",
    h.2.2 (fun _ _ => some 0) id 20 100 _ (by decide)⟩

/-- **C8.** On an empty projected row set the serializer fails while deriving
the header from the first row (no output artifact); on every non-empty row
set header derivation succeeds and an artifact is produced. -/
theorem empty_rowset_header_fails (fmt : ℚ → String) (rows : List Row) :
    (rows = [] → csvContent fmt rows = none) ∧
    (rows ≠ [] → ∃ s, csvContent fmt rows = some s) := by
  constructor
  · intro h; subst h; rfl
  · intro h
    match rows with
    | [] => exact absurd rfl h
    | r :: rs => exact ⟨_, rfl⟩

/-- Witness for C8: the empty row set yields no artifact, a one-row set
yields one. -/
theorem empty_rowset_header_fails_witness :
    csvContent (fun _ => "") [] = none ∧
    ([sampleRow] ≠ ([] : List Row)) ∧
    (∃ s, csvContent (fun _ => "") [sampleRow] = some s) := by
  have hne : [sampleRow] ≠ ([] : List Row) := List.cons_ne_nil _ _
  exact ⟨(empty_rowset_header_fails (fun _ => "") []).1 rfl, hne,
    (empty_rowset_header_fails (fun _ => "") [sampleRow]).2 hne⟩

set_option maxRecDepth 8192 in
/-- **C9.** For every row set over the fixed Row schema: the first serialized
line is the Row field names in construction order converted by `toKebab`
(concretely the header string below, with `dexId → dex-id` and
`specialAttack → special-attack`); every subsequent line is one row,
comma-separated over the fixed 44-cell value list; a `null`/`undefined` cell
renders empty; a cell containing a comma, double quote or newline is wrapped
in double quotes with embedded quotes doubled, and any other cell is passed
through verbatim. -/
theorem csv_serialization_spec (fmt : ℚ → String) (rows : List Row) (r : Row)
    (s : String) :
    csvHeaderLine
      = "dex-id,image-url,species-slug,slug,species,variant,genera,generation,type1,type2,height,weight,ability1,ability2,ability-hidden,ability1description,ability2description,ability-hidden-description,hp,attack,defense,special-attack,special-defense,speed,ev-hp,ev-attack,ev-defense,ev-special-attack,ev-special-defense,ev-speed,catch-rate,base-happiness,base-exp,total-exp,growth-rate,gender-male,gender-female,genderless,egg-cycles,egg-group1,egg-group2,color,shape,category" ∧
    (rows ≠ [] → csvContent fmt rows
      = some (String.intercalate "\n" (csvHeaderLine :: rows.map (rowLine fmt)))) ∧
    rowLine fmt r = String.intercalate "," ((rowStrings fmt r).map csvEscape) ∧
    (rowStrings fmt r).length = rowKeys.length ∧
    csvEscape none = "" ∧
    ((∀ c ∈ s.toList, ¬(c = '"' ∨ c = ',' ∨ c = '\n')) →
      csvEscape (some s) = s) ∧
    ((∃ c ∈ s.toList, (c = '"' ∨ c = ',' ∨ c = '\n')) →
      csvEscape (some s) = "\"" ++ dupQuotes s ++ "\"") := by
  refine ⟨by decide, ?_, rfl, rfl, rfl, ?_, ?_⟩
  · intro h
    match rows with
    | [] => exact absurd rfl h
    | _ :: _ => rfl
  · intro h
    have hc : s.toList.any (fun c => c = '"' ∨ c = ',' ∨ c = '\n') = false := by
      rw [List.any_eq_false]
      intro c hcmem
      simpa using h c hcmem
    have hdef : csvEscape (some s)
        = if s.toList.any (fun c => c = '"' ∨ c = ',' ∨ c = '\n')
            then "\"" ++ dupQuotes s ++ "\"" else s := rfl
    rw [hdef, hc]
    simp
  · intro h
    obtain ⟨c, hcmem, hcp⟩ := h
    have hc : s.toList.any (fun c => c = '"' ∨ c = ',' ∨ c = '\n') = true := by
      rw [List.any_eq_true]
      exact ⟨c, hcmem, by simpa using hcp⟩
    have hdef : csvEscape (some s)
        = if s.toList.any (fun c => c = '"' ∨ c = ',' ∨ c = '\n')
            then "\"" ++ dupQuotes s ++ "\"" else s := rfl
    rw [hdef, hc]
    simp

/-- Witness for C9: a one-row artifact, a comma-bearing cell quoted, a plain
cell passed through. -/
theorem csv_serialization_spec_witness :
    ([sampleRow] ≠ ([] : List Row)) ∧
    csvContent (fun _ => "") [sampleRow]
      = some (String.intercalate "\n"
          (csvHeaderLine :: [sampleRow].map (rowLine (fun _ => "")))) ∧
    csvEscape (some "a,b") = "\"" ++ dupQuotes "a,b" ++ "\"" ∧
    csvEscape (some "plain") = "plain" := by
  have h := csv_serialization_spec (fun _ => "") [sampleRow] sampleRow "a,b"
  have h2 := csv_serialization_spec (fun _ => "") [sampleRow] sampleRow "plain"
  refine ⟨List.cons_ne_nil _ _, h.2.1 (List.cons_ne_nil _ _), ?_, ?_⟩
  · exact h.2.2.2.2.2.2 ⟨',', by decide, by decide⟩
  · exact h2.2.2.2.2.2.1 (by decide)

/-- **C10.** Row projection is total exactly on variants with nonempty types
and abilities lists: both lists nonempty yields a row; an empty types list or
an empty abilities list makes the construction throw (`none`) instead of
producing a row with absent `type1`/`ability1`. -/
theorem projector_totality_spec (am : List (String × AbilityInfo))
    (gm : List (String × Int)) (fm : List (String × List FormRec))
    (specie : Species) (variant : Variant) :
    (variant.types ≠ [] → variant.abilities ≠ [] →
      (projectRow am gm fm specie variant).isSome = true) ∧
    (variant.types = [] ∨ variant.abilities = [] →
      projectRow am gm fm specie variant = none) := by
  constructor
  · intro h1 h2
    rcases hty : variant.types with _ | ⟨t, ts⟩
    · exact absurd hty h1
    · rcases hab : variant.abilities with _ | ⟨a, arest⟩
      · exact absurd hab h2
      · simp [projectRow, hty, hab]
  · intro h
    rcases h with h | h
    · simp [projectRow, h]
    · rcases hty : variant.types with _ | ⟨t, ts⟩
      · simp [projectRow, hty]
      · simp [projectRow, hty, h]

/-- Witness for C10: the sample variant projects to a row; emptying either
list makes the projection throw. -/
theorem projector_totality_spec_witness :
    (cVariant.types ≠ [] ∧ cVariant.abilities ≠ []) ∧
    (projectRow [] [] [] cSpecie cVariant).isSome = true ∧
    cVariantNoAbilities.abilities = [] ∧
    projectRow [] [] [] cSpecie cVariantNoAbilities = none ∧
    cVariantNoTypes.types = [] ∧
    projectRow [] [] [] cSpecie cVariantNoTypes = none := by
  refine ⟨⟨by decide, by decide⟩, ?_, rfl, ?_, rfl, ?_⟩
  · exact (projector_totality_spec [] [] [] cSpecie cVariant).1
      (by decide) (by decide)
  · exact (projector_totality_spec [] [] [] cSpecie cVariantNoAbilities).2
      (Or.inr rfl)
  · exact (projector_totality_spec [] [] [] cSpecie cVariantNoTypes).2
      (Or.inl rfl)

/-- Witness for C2 at a concrete store: a boolean value round-trips through
the disk tier after the memory tier is discarded. -/
theorem cache_set_get_round_trip_witness :
    (cacheGet boolCodec "cache/species"
        (cacheSet boolCodec "cache/species" ⟨[], ⟨0, 0, 0⟩⟩ ⟨[]⟩ "bulbasaur" true).1
        (cacheSet boolCodec "cache/species" ⟨[], ⟨0, 0, 0⟩⟩ ⟨[]⟩ "bulbasaur" true).2
        "bulbasaur").1 = (some true, some Source.memory) ∧
    (cacheGet boolCodec "cache/species" ⟨[], ⟨0, 0, 0⟩⟩
        (cacheSet boolCodec "cache/species" ⟨[], ⟨0, 0, 0⟩⟩ ⟨[]⟩ "bulbasaur" true).2
        "bulbasaur").1 = (some true, some Source.disk) ∧
    lookupA (cacheGet boolCodec "cache/species" ⟨[], ⟨0, 0, 0⟩⟩
        (cacheSet boolCodec "cache/species" ⟨[], ⟨0, 0, 0⟩⟩ ⟨[]⟩ "bulbasaur" true).2
        "bulbasaur").2.mem "bulbasaur" = some true ∧
    (cacheGet boolCodec "cache/species"
        (cacheGet boolCodec "cache/species" ⟨[], ⟨0, 0, 0⟩⟩
          (cacheSet boolCodec "cache/species" ⟨[], ⟨0, 0, 0⟩⟩ ⟨[]⟩ "bulbasaur" true).2
          "bulbasaur").2
        (cacheSet boolCodec "cache/species" ⟨[], ⟨0, 0, 0⟩⟩ ⟨[]⟩ "bulbasaur" true).2
        "bulbasaur").1 = (some true, some Source.memory) :=
  cache_set_get_round_trip boolCodec "cache/species" "bulbasaur" true
    ⟨[], ⟨0, 0, 0⟩⟩ ⟨[]⟩ ⟨0, 0, 0⟩
